import Mathlib

/-!
Shallow embedding of the price-comparison server (`server.py`).

The embedding models, straight from the source:
  - the HTML document as a forest of nodes (elements with tag name,
    attribute list and children, and text nodes); `soup.find` is first
    match over the preorder (document-order) element traversal;
  - `find_element` with its selector dispatch (string / dict / other);
  - the `WEBSITES` registry (amazon, bestbuy, newegg) with its URL
    templates and selectors;
  - `fetch_price`, with the network outcome (timeout / error / response)
    passed in explicitly, returning the optional record together with the
    list of diagnostic lines printed;
  - `compare_prices` over the per-source results, and
    `get_available_websites`.

Python floats are modelled as exact rationals; the prices the program
parses are finite decimals, and the two-decimal display agrees with the
source on every price that has an exact two-decimal representation.
-/

namespace PriceServer

/-- An HTML node as produced by parsing: an element carrying its tag name,
attribute list and children, or a text node. -/
inductive Node where
  | elem (tag : String) (attrs : List (String × String)) (children : List Node)
  | text (s : String)

mutual

/-- `tag.text`: concatenation of all text in the subtree. -/
def nodeText : Node → String
  | .text s => s
  | .elem _ _ c => forestText c

/-- Text of a forest of nodes, left to right. -/
def forestText : List Node → String
  | [] => ""
  | n :: ns => nodeText n ++ forestText ns

end

mutual

/-- The element nodes of a subtree in document (preorder) order. -/
def elemsOf : Node → List Node
  | .text _ => []
  | .elem t a c => .elem t a c :: elemsForest c

/-- The element nodes of a forest in document (preorder) order. -/
def elemsForest : List Node → List Node
  | [] => []
  | n :: ns => elemsOf n ++ elemsForest ns

end

/-- First value bound to a key in an attribute list (HTML attribute lookup). -/
def attrValue (attrs : List (String × String)) (key : String) : Option String :=
  (attrs.find? (fun p => p.1 == key)).map Prod.snd

/-- The tag name of a node (text nodes have none; they never appear in
element traversals). -/
def tagOf : Node → String
  | .elem t _ _ => t
  | .text _ => ""

/-- The attribute list of a node. -/
def attrsOf : Node → List (String × String)
  | .elem _ a _ => a
  | .text _ => []

/-- Split a character list on whitespace, left to right (the whitespace
split applied to the class attribute). -/
def splitWsAux (cur : List Char) : List Char → List (List Char)
  | [] => [cur]
  | c :: rest =>
    if c.isWhitespace then cur :: splitWsAux [] rest
    else splitWsAux (cur ++ [c]) rest

/-- The multi-valued class attribute: the raw class string split on
whitespace, empty pieces dropped (BeautifulSoup treats class as a
space-separated list). -/
def classList (attrs : List (String × String)) : List String :=
  match attrValue attrs "class" with
  | none => []
  | some s => ((splitWsAux [] s.data).filter (fun w => w ≠ [])).map List.asString

/-- BeautifulSoup class match: the sought class is one of the element
classes, or equals the whole raw class attribute string. -/
def matchesClass (n : Node) (c : String) : Bool :=
  (classList (attrsOf n)).contains c || attrValue (attrsOf n) "class" == some c

/-- Id match: the element has an id attribute with exactly this value. -/
def matchesId (n : Node) (i : String) : Bool :=
  attrValue (attrsOf n) "id" == some i

/-- Tag-name match. -/
def matchesTag (n : Node) (t : String) : Bool :=
  tagOf n == t

/-- One attribute constraint: class goes through the multi-valued class
match, any other attribute must be present with exactly this value. -/
def matchesAttr (n : Node) (key val : String) : Bool :=
  if key == "class" then matchesClass n val
  else attrValue (attrsOf n) key == some val

/-- A whole attribute-dict constraint: every listed attribute must match. -/
def matchesAttrs (n : Node) (a : List (String × String)) : Bool :=
  a.all (fun p => matchesAttr n p.1 p.2)

/-- `soup.find`: the first element in document order satisfying the
predicate, or none. -/
def findFirst (doc : List Node) (p : Node → Bool) : Option Node :=
  (elemsForest doc).find? p

/-- A dict selector: which of the keys "class", "id", "tag", "attrs" are
present in the dict, and the value each present key is bound to. -/
structure DictSel where
  cls : Option String
  id : Option String
  tag : Option String
  attrs : Option (List (String × String))

/-- The selector argument of `find_element`: a string (CSS selector), a
dict, or any other Python value (neither string nor dict). -/
inductive Selector where
  | css (s : String)
  | dict (d : DictSel)
  | other

/-- `soup.select_one` for simple selector strings (".c" by class, "#i" by
id, a bare tag name otherwise). The registry uses only dict selectors, so
only this simple CSS subset is modelled. -/
def selectOne (doc : List Node) (s : String) : Option Node :=
  if s.startsWith "." then findFirst doc (fun n => matchesClass n (s.drop 1))
  else if s.startsWith "#" then findFirst doc (fun n => matchesId n (s.drop 1))
  else findFirst doc (fun n => matchesTag n s)

/-- `find_element(soup, selector)`: a string selector goes to
`select_one`; a dict selector is dispatched on key presence in the order
class, id, tag, attrs (first present key wins); anything else gives none. -/
def find_element (doc : List Node) (sel : Selector) : Option Node :=
  match sel with
  | .css s => selectOne doc s
  | .dict d =>
    match d.cls with
    | some c => findFirst doc (fun n => matchesClass n c)
    | none =>
      match d.id with
      | some i => findFirst doc (fun n => matchesId n i)
      | none =>
        match d.tag with
        | some t => findFirst doc (fun n => matchesTag n t)
        | none =>
          match d.attrs with
          | some a => findFirst doc (fun n => matchesAttrs n a)
          | none => none
  | .other => none

/-- The request header block; the source repeats this same literal header
dict in each of the three registry entries. -/
def defaultHeaders : List (String × String) :=
  [("User-Agent", "Mozilla/5.0 (Macintosh; Intel Mac OS X 10_15_7) AppleWebKit/537.36 (KHTML, like Gecko) Chrome/122.0.0.0 Safari/537.36"),
   ("Accept", "text/html,application/xhtml+xml,application/xml;q=0.9,image/avif,image/webp,image/apng,*/*;q=0.8"),
   ("Accept-Language", "en-US,en;q=0.9"),
   ("Accept-Encoding", "gzip, deflate, br"),
   ("Connection", "keep-alive"),
   ("Upgrade-Insecure-Requests", "1"),
   ("Sec-Fetch-Dest", "document"),
   ("Sec-Fetch-Mode", "navigate"),
   ("Sec-Fetch-Site", "none"),
   ("Sec-Fetch-User", "?1"),
   ("Cache-Control", "max-age=0")]

/-- One entry of the `WEBSITES` registry. -/
structure SourceConfig where
  url : String
  price_selector : Selector
  name_selector : Selector
  headers : List (String × String)

/-- The amazon registry entry. -/
def amazonConfig : SourceConfig :=
  ⟨"https://www.amazon.com/s?k=\x7b\x7d",
   .dict ⟨some "a-price-whole", none, none, none⟩,
   .dict ⟨some "a-size-medium", none, none, none⟩,
   defaultHeaders⟩

/-- The bestbuy registry entry. -/
def bestbuyConfig : SourceConfig :=
  ⟨"https://www.bestbuy.com/site/searchpage.jsp?st=\x7b\x7d",
   .dict ⟨some "priceView-customer-price", none, none, none⟩,
   .dict ⟨none, none, some "h4", some [("class", "sku-title")]⟩,
   defaultHeaders⟩

/-- The newegg registry entry. -/
def neweggConfig : SourceConfig :=
  ⟨"https://www.newegg.com/p/pl?d=\x7b\x7d",
   .dict ⟨some "price-current", none, none, none⟩,
   .dict ⟨none, none, some "a", some [("class", "item-title")]⟩,
   defaultHeaders⟩

/-- The `WEBSITES` registry, in its (insertion-order) iteration order. -/
def WEBSITES : List (String × SourceConfig) :=
  [("amazon", amazonConfig), ("bestbuy", bestbuyConfig), ("newegg", neweggConfig)]

/-- Python str.title(): the first letter of each alphabetic run is
uppercased, the rest lowercased; non-letters pass through. -/
def pyTitle (s : String) : String :=
  (s.data.foldl
    (fun (acc : List Char × Bool) c =>
      if c.isAlpha then (acc.1 ++ [if acc.2 then c.toLower else c.toUpper], true)
      else (acc.1 ++ [c], false))
    ([], false)).1.asString

/-- Two-decimal price display (the "...:.2f" formatting of a price).
Prices are nonnegative; the value is rounded to the nearest cent (every
price the program displays in the verified scenarios is exact at two
decimals, where this agrees with the source formatting). -/
def fmt2 (q : ℚ) : String :=
  toString ((Int.floor (q * 100 + 1/2)).toNat / 100) ++ "." ++
    (if (Int.floor (q * 100 + 1/2)).toNat % 100 < 10 then "0" else "") ++
    toString ((Int.floor (q * 100 + 1/2)).toNat % 100)

/-- Python str.strip(): drop whitespace from both ends. -/
def pyStrip (s : String) : String :=
  ((s.data.dropWhile Char.isWhitespace).reverse.dropWhile Char.isWhitespace).reverse.asString

/-- Keep only digit and dot characters (the filter applied to the stripped
price text). -/
def priceDigits (s : String) : String :=
  (s.data.filter (fun c => c.isDigit || c == '.')).asString

/-- The natural number denoted by a digit list (most significant first). -/
def digitsVal (l : List Char) : Nat :=
  l.foldl (fun n c => 10 * n + (c.toNat - 48)) 0

/-- Split a character list at its first dot, if any. -/
def splitAtDot : List Char → List Char × Option (List Char)
  | [] => ([], none)
  | c :: rest =>
    if c = '.' then ([], some rest)
    else
      let r := splitAtDot rest
      (c :: r.1, r.2)

/-- Python float() restricted to strings of digits and dots (all the
filter can leave): it succeeds iff the string has at most one dot and at
least one digit, and denotes the evident decimal value. -/
def floatOfDigitsDots (s : String) : Option ℚ :=
  if s.data.count '.' ≤ 1 && s.data.any (fun c => c.isDigit) then
    match splitAtDot s.data with
    | (i, none) => some (digitsVal i : ℚ)
    | (i, some f) => some ((digitsVal i : ℚ) + (digitsVal f : ℚ) / (10 ^ f.length))
  else none

/-- The price-text normalization chain of fetch_price: strip the element
text, keep only digit and dot characters, parse as a float. -/
def parse_price (text : String) : Option ℚ :=
  floatOfDigitsDots (priceDigits (pyStrip text))

/-- One successfully extracted price observation (the dict fetch_price
returns on success). -/
structure PriceRecord where
  website : String
  name : String
  price : ℚ
  url : String
  timestamp : String
deriving DecidableEq, Inhabited

/-- The outcome of the HTTP GET for one source: timed out, failed with an
error message, or returned a status code and a parsed body. -/
inductive NetResult where
  | timeout
  | netError (msg : String)
  | response (status : Nat) (body : List Node)

/-- str.format with one positional argument: the first slot of the
template is replaced by the argument (every registry template has exactly
one slot, written as an open and a close brace). -/
def substSlot (arg : List Char) : List Char → List Char
  | [] => []
  | c :: rest =>
    if c = '\x7b' ∧ rest.head? = some '\x7d' then arg ++ rest.tail
    else c :: substSlot arg rest

/-- String wrapper for `substSlot`. -/
def pyFormat (template arg : String) : String :=
  (substSlot arg.data template.data).asString

/-- product_name.replace(" ", "+"): a single-character replace, i.e. the
character map sending each space to a plus and fixing everything else. -/
def pyReplaceSpace (s : String) : String :=
  (s.data.map (fun c => if c = ' ' then '+' else c)).asString

/-- The request URL fetch_price builds: the config URL template formatted
with the space-to-plus product name. -/
def build_url (cfg : SourceConfig) (product : String) : String :=
  pyFormat cfg.url (pyReplaceSpace product)

/-- fetch_price(session, website, product_name), with the network outcome
and the clock passed in explicitly. Returns the optional price record
together with the list of diagnostic lines printed. The try/except of the
source catches every exception (the KeyError of an unknown registry key,
the ValueError of the float conversion) and turns it into a log line plus
a None return; an absent price or name element falls through the
`if price_element and name_element` check and returns None with no log
(a found element is always truthy for BeautifulSoup tags). -/
def fetch_price (website product : String) (net : NetResult) (now : String) :
    Option PriceRecord × List String :=
  match WEBSITES.lookup website with
  | none =>
      (none, ["Error fetching from " ++ website ++ ": \x27" ++ website ++ "\x27"])
  | some config =>
    let url := build_url config product
    match net with
    | .timeout => (none, ["Request timed out for " ++ website])
    | .netError m => (none, ["Error fetching from " ++ website ++ ": " ++ m])
    | .response status body =>
      if status == 200 then
        match find_element body config.price_selector,
              find_element body config.name_selector with
        | some pe, some ne =>
          match parse_price (nodeText pe) with
          | some p =>
            (some ⟨website, pyStrip (nodeText ne), p, url, now⟩, [])
          | none =>
            (none, ["Error fetching from " ++ website ++
              ": could not convert string to float: \x27" ++
              priceDigits (pyStrip (nodeText pe)) ++ "\x27"])
        | _, _ => (none, [])
      else
        (none, ["Failed to fetch page from " ++ website ++ ". Status code: " ++
          toString status])

/-- Insert a record into a list before the first record of price not
smaller: the stable ascending insertion step. -/
def insertByPrice (r : PriceRecord) : List PriceRecord → List PriceRecord
  | [] => [r]
  | x :: xs => if r.price ≤ x.price then r :: x :: xs else x :: insertByPrice r xs

/-- valid_results.sort(key=lambda x: x["price"]): a stable ascending sort
by price (list.sort is stable; insertion sort realizes the same
function). -/
def sortByPrice : List PriceRecord → List PriceRecord
  | [] => []
  | r :: rs => insertByPrice r (sortByPrice rs)

/-- One numbered entry of the report body. -/
def renderEntry (i : Nat) (r : PriceRecord) : String :=
  "\n" ++ toString i ++ ". " ++ pyTitle r.website ++ ":\n" ++
  "   Product: " ++ r.name ++ "\n" ++
  "   Price: $" ++ fmt2 r.price ++ "\n" ++
  "   URL: " ++ r.url ++ "\n"

/-- The report body: one entry per surviving record, numbered from 1. -/
def renderBody (rs : List PriceRecord) : String :=
  String.join ((rs.enumFrom 1).map (fun p => renderEntry p.1 p.2))

/-- The summary block: best deal (first sorted record), price range
(first and last sorted records), store count. -/
def renderSummary (sorted : List PriceRecord) (count : Nat) : String :=
  "\nBest Deal: " ++ pyTitle (sorted.headD default).website ++ " at $" ++
    fmt2 (sorted.headD default).price ++ "\n" ++
  "Price Range: $" ++ fmt2 (sorted.headD default).price ++ " - $" ++
    fmt2 (sorted.getLastD default).price ++ "\n" ++
  "Number of stores compared: " ++ toString count ++ "\n"

/-- compare_prices(product_name), with the per-source fetch results (one
per registry entry, in registry order, as delivered by asyncio.gather)
passed in explicitly. -/
def compare_prices (product : String) (results : List (Option PriceRecord)) : String :=
  let valid := results.reduceOption
  if valid.isEmpty then "No prices found for " ++ product
  else
    let sorted := sortByPrice valid
    "Price Comparison for: " ++ product ++ "\n\n" ++ "Best Prices:\n" ++
      renderBody sorted ++ renderSummary sorted valid.length

/-- get_available_websites(): the header line plus the hyphen-bulleted,
newline-joined registry identifiers, in registry iteration order. A pure
constant of the embedding: the source reads only the immutable registry. -/
def get_available_websites : String :=
  "Available websites for price comparison:\n" ++
    String.intercalate "\n" (WEBSITES.map (fun p => "- " ++ p.1))

/-- Uppercase hex digit of a value below 16. -/
def hexDigit (n : Nat) : Char :=
  if n < 10 then Char.ofNat (48 + n) else Char.ofNat (55 + n)

/-- Modelled from the spec: "percent-" and "plus-encoding the product
name" into the template, the slot receiving "the URL-encoded product
name" — the standard form-urlencoded quoting (quote_plus): a space becomes a plus,
ASCII letters, digits and the characters underscore, dot, hyphen, tilde
pass through, every other character is percent-encoded as two uppercase
hex digits (ASCII inputs). -/
def urlEncodeSpec (s : String) : String :=
  ((s.data.map (fun c =>
    if c = ' ' then ['+']
    else if c.isAlphanum || c = '_' || c = '.' || c = '-' || c = '~' then [c]
    else ['%', hexDigit (c.toNat / 16), hexDigit (c.toNat % 16)])).flatten).asString

/-- The restriction of a dict rule to its highest-precedence present key
(precedence class, id, tag, attrs) — the rule the claim compares against. -/
def restrictToFirstKey (d : DictSel) : DictSel :=
  match d.cls with
  | some c => ⟨some c, none, none, none⟩
  | none =>
    match d.id with
    | some i => ⟨none, some i, none, none⟩
    | none =>
      match d.tag with
      | some t => ⟨none, none, some t, none⟩
      | none => ⟨none, none, none, d.attrs⟩

/-- A document whose first h4 carries no sku-title class while a later
element does carry it (exercises the bestbuy name selector shape). -/
def docTagAttrs : List Node :=
  [.elem "h4" [] [.text "first"], .elem "div" [("class", "sku-title")] [.text "second"]]

/-- A document matching the amazon selectors whose price text has no
digits. -/
def docBadPrice : List Node :=
  [.elem "span" [("class", "a-price-whole")] [.text "N/A"],
   .elem "div" [("class", "a-size-medium")] [.text "Laptop X"]]

/-- A document matching the amazon selectors with a parsable price. -/
def docOk : List Node :=
  [.elem "span" [("class", "a-price-whole")] [.text " 199.99 "],
   .elem "div" [("class", "a-size-medium")] [.text "  Laptop X  "]]

/-- Concrete record priced 299.00 from the first registry source. -/
def wrecA : PriceRecord := ⟨"amazon", "Laptop A", (299 : ℚ), "u1", "t1"⟩

/-- Concrete record priced 199.99 from the second registry source. -/
def wrecB : PriceRecord := ⟨"bestbuy", "Laptop B", (199.99 : ℚ), "u2", "t2"⟩

/-- Concrete record priced 249.50 from the third registry source. -/
def wrecC : PriceRecord := ⟨"newegg", "Laptop C", (249.5 : ℚ), "u3", "t3"⟩

/-- The three concrete successful per-source results, in registry order. -/
def wresults : List (Option PriceRecord) := [some wrecA, some wrecB, some wrecC]

/-! ### Helper lemmas -/

theorem insertByPrice_perm (r : PriceRecord) (l : List PriceRecord) :
    List.Perm (insertByPrice r l) (r :: l) := by
  induction l with
  | nil => exact List.Perm.refl _
  | cons x xs ih =>
    simp only [insertByPrice]
    by_cases h : r.price ≤ x.price
    · rw [if_pos h]
    · rw [if_neg h]
      exact (ih.cons x).trans (List.Perm.swap r x xs)

theorem sortByPrice_perm (l : List PriceRecord) : List.Perm (sortByPrice l) l := by
  induction l with
  | nil => exact List.Perm.refl _
  | cons r rs ih =>
    simp only [sortByPrice]
    exact (insertByPrice_perm r (sortByPrice rs)).trans (ih.cons r)

theorem insertByPrice_pairwise {r : PriceRecord} {l : List PriceRecord}
    (h : l.Pairwise (fun a b => a.price ≤ b.price)) :
    (insertByPrice r l).Pairwise (fun a b => a.price ≤ b.price) := by
  induction l with
  | nil => simp [insertByPrice]
  | cons x xs ih =>
    rw [List.pairwise_cons] at h
    simp only [insertByPrice]
    by_cases hle : r.price ≤ x.price
    · rw [if_pos hle]
      refine List.Pairwise.cons ?_ (List.Pairwise.cons h.1 h.2)
      intro b hb
      rcases List.mem_cons.mp hb with rfl | hb
      · exact hle
      · exact le_trans hle (h.1 b hb)
    · rw [if_neg hle]
      refine List.Pairwise.cons ?_ (ih h.2)
      intro b hb
      have hb2 : b ∈ r :: xs := (insertByPrice_perm r xs).mem_iff.mp hb
      rcases List.mem_cons.mp hb2 with rfl | hb2
      · exact le_of_lt (lt_of_not_le hle)
      · exact h.1 b hb2

theorem sortByPrice_pairwise (l : List PriceRecord) :
    (sortByPrice l).Pairwise (fun a b => a.price ≤ b.price) := by
  induction l with
  | nil => simp [sortByPrice]
  | cons r rs ih =>
    simp only [sortByPrice]
    exact insertByPrice_pairwise ih

theorem insertByPrice_filter (r : PriceRecord) (l : List PriceRecord) (p : ℚ) :
    (insertByPrice r l).filter (fun x => decide (x.price = p)) =
      if r.price = p then r :: l.filter (fun x => decide (x.price = p))
      else l.filter (fun x => decide (x.price = p)) := by
  induction l with
  | nil =>
    by_cases hrp : r.price = p
    · simp [insertByPrice, List.filter, hrp]
    · simp [insertByPrice, List.filter, hrp]
  | cons x xs ih =>
    simp only [insertByPrice]
    by_cases hle : r.price ≤ x.price
    · rw [if_pos hle]
      by_cases hrp : r.price = p
      · simp [List.filter_cons, hrp]
      · simp [List.filter_cons, hrp]
    · rw [if_neg hle]
      have hxr : x.price < r.price := lt_of_not_le hle
      by_cases hrp : r.price = p
      · have hxp : ¬ x.price = p := by
          intro hxp
          exact absurd (hxp.trans hrp.symm) (ne_of_lt hxr)
        simp [List.filter_cons, hxp, hrp, ih]
      · by_cases hxp : x.price = p
        · simp [List.filter_cons, hxp, hrp, ih]
        · simp [List.filter_cons, hxp, hrp, ih]

theorem sortByPrice_filter (l : List PriceRecord) (p : ℚ) :
    (sortByPrice l).filter (fun x => decide (x.price = p)) =
      l.filter (fun x => decide (x.price = p)) := by
  induction l with
  | nil => rfl
  | cons r rs ih =>
    simp only [sortByPrice, insertByPrice_filter, ih]
    by_cases hrp : r.price = p
    · simp [List.filter_cons, hrp]
    · simp [List.filter_cons, hrp]

theorem pairwise_headD_le {s : List PriceRecord}
    (hs : s.Pairwise (fun a b => a.price ≤ b.price)) :
    ∀ x ∈ s, (s.headD default).price ≤ x.price := by
  cases s with
  | nil => intro x hx; cases hx
  | cons a t =>
    rw [List.pairwise_cons] at hs
    intro x hx
    rcases List.mem_cons.mp hx with rfl | hx
    · exact le_refl _
    · exact hs.1 x hx

theorem getLastD_mem (l : List PriceRecord) (d : PriceRecord) (h : l ≠ []) :
    l.getLastD d ∈ l := by
  induction l generalizing d with
  | nil => exact absurd rfl h
  | cons a t ih =>
    rw [List.getLastD_cons]
    cases t with
    | nil => simp [List.getLastD]
    | cons b t2 => exact List.mem_cons_of_mem a (ih a (by simp))

theorem pairwise_le_getLastD {s : List PriceRecord}
    (hs : s.Pairwise (fun a b => a.price ≤ b.price)) :
    ∀ x ∈ s, x.price ≤ (s.getLastD default).price := by
  induction s with
  | nil => intro x hx; cases hx
  | cons a t ih =>
    rw [List.pairwise_cons] at hs
    intro x hx
    rw [List.getLastD_cons]
    cases t with
    | nil =>
      rcases List.mem_cons.mp hx with rfl | hx
      · simp [List.getLastD]
      · cases hx
    | cons b t2 =>
      have hlast : (b :: t2).getLastD a = (b :: t2).getLastD default := by
        rw [List.getLastD_cons, List.getLastD_cons]
      rw [hlast]
      rcases List.mem_cons.mp hx with rfl | hx
      · exact hs.1 _ (getLastD_mem (b :: t2) default (by simp))
      · exact ih hs.2 x hx

theorem reduceOption_eq_nil {l : List (Option PriceRecord)}
    (h : ∀ r ∈ l, r = none) : l.reduceOption = [] := by
  induction l with
  | nil => rfl
  | cons a t ih =>
    have ha : a = none := h a (List.mem_cons_self a t)
    subst ha
    simp only [List.reduceOption_cons_of_none]
    exact ih (fun r hr => h r (List.mem_cons_of_mem none hr))

theorem mem_pyStrip {c : Char} {s : String} (h : c ∈ (pyStrip s).data) :
    c ∈ s.data := by
  have h1 : (pyStrip s).data =
      ((s.data.dropWhile Char.isWhitespace).reverse.dropWhile Char.isWhitespace).reverse :=
    rfl
  rw [h1, List.mem_reverse] at h
  have h2 := (List.dropWhile_sublist _).subset h
  rw [List.mem_reverse] at h2
  exact (List.dropWhile_sublist _).subset h2

theorem parse_price_of_no_digit {s : String} (h : ∀ c ∈ s.data, ¬ c.isDigit = true) :
    parse_price s = none := by
  have hany : ((priceDigits (pyStrip s)).data.any (fun c => c.isDigit)) = false := by
    rw [List.any_eq_false]
    intro c hc
    have hc2 : c ∈ (pyStrip s).data := List.mem_of_mem_filter hc
    exact h c (mem_pyStrip hc2)
  unfold parse_price floatOfDigitsDots
  rw [hany]
  simp

theorem substSlot_no_brace (arg : List Char) (pre rest : List Char)
    (h : Char.ofNat 123 ∉ pre) :
    substSlot arg (pre ++ Char.ofNat 123 :: Char.ofNat 125 :: rest) =
      pre ++ arg ++ rest := by
  induction pre with
  | nil => simp [substSlot]
  | cons c cs ih =>
    have hc : ¬ c = Char.ofNat 123 := fun hc => h (hc ▸ List.mem_cons_self c cs)
    rw [List.cons_append, substSlot, if_neg (fun hand => hc hand.1)]
    rw [ih (fun hm => h (List.mem_cons_of_mem c hm)), List.cons_append, List.cons_append]

theorem fetch_price_outcomes (website product now : String) (cfg : SourceConfig)
    (hcfg : WEBSITES.lookup website = some cfg) :
    fetch_price website product .timeout now =
      (none, ["Request timed out for " ++ website]) ∧
    (∀ m, fetch_price website product (.netError m) now =
      (none, ["Error fetching from " ++ website ++ ": " ++ m])) ∧
    (∀ st body, st ≠ 200 →
      fetch_price website product (.response st body) now =
        (none, ["Failed to fetch page from " ++ website ++ ". Status code: " ++
          toString st])) ∧
    (∀ body, (find_element body cfg.price_selector = none ∨
        find_element body cfg.name_selector = none) →
      fetch_price website product (.response 200 body) now = (none, [])) ∧
    (∀ body pe ne, find_element body cfg.price_selector = some pe →
      find_element body cfg.name_selector = some ne →
      parse_price (nodeText pe) = none →
      (fetch_price website product (.response 200 body) now).1 = none ∧
      (fetch_price website product (.response 200 body) now).2 ≠ []) := by
  refine ⟨?_, ?_, ?_, ?_, ?_⟩
  · simp only [fetch_price, hcfg]
  · intro m
    simp only [fetch_price, hcfg]
  · intro st body hst
    simp only [fetch_price, hcfg]
    have hbeq : (st == 200) = false := by simpa using hst
    simp [hbeq]
  · intro body hnone
    simp only [fetch_price, hcfg]
    rcases hnone with hp | hn
    · rw [hp]
      cases find_element body cfg.name_selector <;> simp
    · rw [hn]
      cases find_element body cfg.price_selector <;> simp
  · intro body pe ne hp hn hparse
    simp only [fetch_price, hcfg, hp, hn, hparse]
    exact ⟨rfl, by simp⟩

theorem build_url_split (cfg : SourceConfig) (product pre : String)
    (htempl : cfg.url.data = pre.data ++ [Char.ofNat 123, Char.ofNat 125])
    (hpre : Char.ofNat 123 ∉ pre.data) :
    build_url cfg product = pre ++ pyReplaceSpace product := by
  apply String.ext
  show substSlot (pyReplaceSpace product).data cfg.url.data =
    (pre ++ pyReplaceSpace product).data
  rw [htempl]
  have h := substSlot_no_brace (pyReplaceSpace product).data pre.data [] hpre
  rw [List.append_nil] at h
  rw [h]
  simp

/-! ### Claim theorems -/

/-- C1: for every non-empty set of surviving price records, compare_prices
renders them sorted ascending by price with ties kept in original
(registry) order — the sorted list is a permutation of the surviving
records, pairwise ascending in price, and for every price value the
records carrying it appear in their original relative order; the rendered
report is the header plus the numbered body of the sorted list plus the
summary whose Best Deal line carries the first (minimum-price) record's
source and price, whose Price Range line carries the first and last sorted
prices, and whose count line carries the number of surviving records. -/
theorem compare_prices_report (product : String)
    (results : List (Option PriceRecord)) (h : results.reduceOption ≠ []) :
    List.Perm (sortByPrice results.reduceOption) results.reduceOption ∧
    (sortByPrice results.reduceOption).Pairwise (fun a b => a.price ≤ b.price) ∧
    (∀ p : ℚ, (sortByPrice results.reduceOption).filter (fun x => decide (x.price = p)) =
      results.reduceOption.filter (fun x => decide (x.price = p))) ∧
    (∀ r ∈ results.reduceOption,
      ((sortByPrice results.reduceOption).headD default).price ≤ r.price ∧
      r.price ≤ ((sortByPrice results.reduceOption).getLastD default).price) ∧
    compare_prices product results =
      "Price Comparison for: " ++ product ++ "\n\n" ++ "Best Prices:\n" ++
        renderBody (sortByPrice results.reduceOption) ++
        renderSummary (sortByPrice results.reduceOption) results.reduceOption.length := by
  refine ⟨sortByPrice_perm _, sortByPrice_pairwise _, fun p => sortByPrice_filter _ p, ?_, ?_⟩
  · intro r hr
    have hmem : r ∈ sortByPrice results.reduceOption :=
      ((sortByPrice_perm _).mem_iff).mpr hr
    exact ⟨pairwise_headD_le (sortByPrice_pairwise _) r hmem,
      pairwise_le_getLastD (sortByPrice_pairwise _) r hmem⟩
  · have hne : results.reduceOption.isEmpty = false := by
      cases hv : results.reduceOption with
      | nil => exact absurd hv h
      | cons a t => rfl
    simp [compare_prices, hne]

/-- C1 witness: the three records priced 299.00, 199.99, 249.50 from the
three sources are listed ascending as 199.99, 249.50, 299.00 and the
summary names Bestbuy at 199.99 as the Best Deal. -/
theorem compare_prices_report_witness :
    List.Perm (sortByPrice wresults.reduceOption) wresults.reduceOption ∧
    (sortByPrice wresults.reduceOption).Pairwise (fun a b => a.price ≤ b.price) ∧
    compare_prices "laptop" wresults =
      "Price Comparison for: " ++ "laptop" ++ "\n\n" ++ "Best Prices:\n" ++
        renderBody (sortByPrice wresults.reduceOption) ++
        renderSummary (sortByPrice wresults.reduceOption) wresults.reduceOption.length ∧
    sortByPrice wresults.reduceOption = [wrecB, wrecC, wrecA] ∧
    renderSummary (sortByPrice wresults.reduceOption) wresults.reduceOption.length =
      "\nBest Deal: Bestbuy at $199.99\nPrice Range: $199.99 - $299.00\n" ++
        "Number of stores compared: 3\n" := by
  have h := compare_prices_report "laptop" wresults (by decide)
  have hred : wresults.reduceOption = [wrecA, wrecB, wrecC] := rfl
  have hsort : sortByPrice wresults.reduceOption = [wrecB, wrecC, wrecA] := by
    rw [hred]
    norm_num [sortByPrice, insertByPrice, wrecA, wrecB, wrecC]
  have hfloorB : Int.floor ((199.99 : ℚ) * 100 + 1/2) = 19999 := by
    rw [Int.floor_eq_iff]
    norm_num
  have hfloorA : Int.floor ((299 : ℚ) * 100 + 1/2) = 29900 := by
    rw [Int.floor_eq_iff]
    norm_num
  have hfmtB : fmt2 (199.99 : ℚ) = "199.99" := by
    unfold fmt2
    rw [hfloorB]
    rfl
  have hfmtA : fmt2 (299 : ℚ) = "299.00" := by
    unfold fmt2
    rw [hfloorA]
    rfl
  have hsummary : renderSummary (sortByPrice wresults.reduceOption)
      wresults.reduceOption.length =
      "\nBest Deal: Bestbuy at $199.99\nPrice Range: $199.99 - $299.00\n" ++
        "Number of stores compared: 3\n" := by
    rw [hsort, hred]
    unfold renderSummary
    rw [show List.headD [wrecB, wrecC, wrecA] default = wrecB from rfl,
        show List.getLastD [wrecB, wrecC, wrecA] default = wrecA from rfl,
        show wrecB.price = (199.99 : ℚ) from rfl,
        show wrecA.price = (299 : ℚ) from rfl,
        hfmtB, hfmtA]
    rfl
  exact ⟨h.1, h.2.1, h.2.2.2.2, hsort, hsummary⟩

/-- C2 counterexample: the claim says every failure in the taxonomy yields
None plus a diagnostic log line; but an absent price element (a 200
response whose body matches nothing) yields None with an empty log, so it
is false that a None result always comes with a log line. -/
theorem fetch_price_absent_element_silent :
    ¬ (∀ (website product : String) (net : NetResult) (now : String),
        (fetch_price website product net now).1 = none →
        (fetch_price website product net now).2 ≠ []) := by
  intro hclaim
  exact hclaim "amazon" "laptop" (.response 200 []) "t" rfl rfl

/-- C2 (amended): fetch_price never propagates an exception and every
failure in the taxonomy reduces to an absent result: a timeout, a
connection failure and a non-200 status produce None plus one diagnostic
log line, an unparsable price produces None plus one diagnostic log line,
while an absent price or name element produces None with no log line. -/
theorem fetch_price_failure_taxonomy (website product now : String) (cfg : SourceConfig)
    (hcfg : WEBSITES.lookup website = some cfg) :
    fetch_price website product .timeout now =
      (none, ["Request timed out for " ++ website]) ∧
    (∀ m, fetch_price website product (.netError m) now =
      (none, ["Error fetching from " ++ website ++ ": " ++ m])) ∧
    (∀ st body, st ≠ 200 →
      fetch_price website product (.response st body) now =
        (none, ["Failed to fetch page from " ++ website ++ ". Status code: " ++
          toString st])) ∧
    (∀ body, (find_element body cfg.price_selector = none ∨
        find_element body cfg.name_selector = none) →
      fetch_price website product (.response 200 body) now = (none, [])) ∧
    (∀ body pe ne, find_element body cfg.price_selector = some pe →
      find_element body cfg.name_selector = some ne →
      parse_price (nodeText pe) = none →
      (fetch_price website product (.response 200 body) now).1 = none ∧
      (fetch_price website product (.response 200 body) now).2 ≠ []) :=
  fetch_price_outcomes website product now cfg hcfg

/-- C2 witness: the taxonomy at concrete inputs — a timeout, a 500
response and an unparsable price for amazon all give None (the latter two
with and the element-absence case without a log line). -/
theorem fetch_price_failure_taxonomy_witness :
    fetch_price "amazon" "laptop" .timeout "t" =
      (none, ["Request timed out for amazon"]) ∧
    fetch_price "amazon" "laptop" (.response 500 []) "t" =
      (none, ["Failed to fetch page from amazon. Status code: 500"]) ∧
    (fetch_price "amazon" "laptop" (.response 200 docBadPrice) "t").1 = none ∧
    (fetch_price "amazon" "laptop" (.response 200 docBadPrice) "t").2 ≠ [] := by
  have h := fetch_price_failure_taxonomy "amazon" "laptop" "t" amazonConfig rfl
  have hbad := h.2.2.2.2 docBadPrice
    (.elem "span" [("class", "a-price-whole")] [.text "N/A"])
    (.elem "div" [("class", "a-size-medium")] [.text "Laptop X"])
    rfl rfl (by decide)
  exact ⟨h.1, h.2.2.1 500 [] (by decide), hbad.1, hbad.2⟩

/-- C3 counterexample: for a rule carrying both a tag and an attrs key it
is false that a returned element satisfies both constraints — on a
document whose first h4 lacks the sku-title class, the rule
(tag h4, attrs class=sku-title) returns that h4 even though its attribute
match fails. -/
theorem find_element_tag_attrs_not_conjunctive :
    ¬ (∀ (doc : List Node) (t : String) (a : List (String × String)) (e : Node),
        find_element doc (.dict ⟨none, none, some t, some a⟩) = some e →
        matchesTag e t = true ∧ matchesAttrs e a = true) := by
  intro hclaim
  have h := hclaim docTagAttrs "h4" [("class", "sku-title")]
    (.elem "h4" [] [.text "first"]) rfl
  exact absurd h.2 (by decide)

/-- C3 (amended): when a dict rule carries both a tag and an attrs key
(class and id absent), the tag key wins under the class, id, tag, attrs
precedence: the result is the first element matching the tag name alone,
and the attrs constraint is ignored entirely. -/
theorem find_element_tag_wins_over_attrs (doc : List Node) (t : String)
    (a : List (String × String)) :
    find_element doc (.dict ⟨none, none, some t, some a⟩) =
      findFirst doc (fun n => matchesTag n t) ∧
    find_element doc (.dict ⟨none, none, some t, some a⟩) =
      find_element doc (.dict ⟨none, none, some t, none⟩) :=
  ⟨rfl, rfl⟩

/-- C4: for every parsed document and dict rule, find_element evaluates
exactly one selection strategy, chosen by the fixed precedence class, id,
tag, attrs: the result equals what the rule restricted to only its
highest-precedence present key returns. -/
theorem find_element_first_present_key_wins (doc : List Node) (d : DictSel) :
    find_element doc (.dict d) = find_element doc (.dict (restrictToFirstKey d)) := by
  obtain ⟨c, i, t, a⟩ := d
  cases c <;> cases i <;> cases t <;> cases a <;> rfl

/-- C5: price text is normalized by keeping only digit and dot characters
and parsing the remainder as a number: both "$1,234.56 each" and
"1234.56" normalize to 1234.56; a text with no digits fails to parse, and
whenever the normalized price text fails to parse fetch_price returns an
absent result instead of propagating the parse fault. -/
theorem parse_price_normalization :
    parse_price "$1,234.56 each" = some (1234.56 : ℚ) ∧
    parse_price "1234.56" = some (1234.56 : ℚ) ∧
    (∀ s : String, (∀ c ∈ s.data, ¬ c.isDigit = true) → parse_price s = none) ∧
    (∀ (website product now : String) (cfg : SourceConfig) (body : List Node)
       (pe ne : Node),
      WEBSITES.lookup website = some cfg →
      find_element body cfg.price_selector = some pe →
      find_element body cfg.name_selector = some ne →
      parse_price (nodeText pe) = none →
      (fetch_price website product (.response 200 body) now).1 = none) := by
  refine ⟨?_, ?_, fun s hs => parse_price_of_no_digit hs, ?_⟩
  · have h1 : priceDigits (pyStrip "$1,234.56 each") = "1234.56" := rfl
    unfold parse_price
    rw [h1]
    show some ((digitsVal ['1','2','3','4'] : ℚ) + (digitsVal ['5','6'] : ℚ) / 10 ^ 2) =
      some (1234.56 : ℚ)
    rw [show digitsVal ['1','2','3','4'] = 1234 from rfl,
        show digitsVal ['5','6'] = 56 from rfl]
    norm_num
  · have h1 : priceDigits (pyStrip "1234.56") = "1234.56" := rfl
    unfold parse_price
    rw [h1]
    show some ((digitsVal ['1','2','3','4'] : ℚ) + (digitsVal ['5','6'] : ℚ) / 10 ^ 2) =
      some (1234.56 : ℚ)
    rw [show digitsVal ['1','2','3','4'] = 1234 from rfl,
        show digitsVal ['5','6'] = 56 from rfl]
    norm_num
  · intro website product now cfg body pe ne hcfg hp hn hparse
    exact ((fetch_price_outcomes website product now cfg hcfg).2.2.2.2
      body pe ne hp hn hparse).1

/-- C5 witness: a digit-free text parses to nothing, and a 200 amazon
response whose price element text is "N/A" makes fetch_price return an
absent result. -/
theorem parse_price_normalization_witness :
    parse_price "no price here" = none ∧
    (fetch_price "amazon" "laptop" (.response 200 docBadPrice) "t").1 = none :=
  ⟨parse_price_normalization.2.2.1 "no price here" (by decide),
   parse_price_normalization.2.2.2 "amazon" "laptop" "t" amazonConfig docBadPrice
     (.elem "span" [("class", "a-price-whole")] [.text "N/A"])
     (.elem "div" [("class", "a-size-medium")] [.text "Laptop X"])
     rfl rfl rfl (by decide)⟩

/-- C6: when every source yields no record, compare_prices returns exactly
the literal "No prices found for " followed by the product name, with no
list. -/
theorem compare_prices_no_results (product : String)
    (results : List (Option PriceRecord)) (h : ∀ r ∈ results, r = none) :
    compare_prices product results = "No prices found for " ++ product := by
  simp [compare_prices, reduceOption_eq_nil h]

/-- C6 witness: three absent results give the literal no-prices message. -/
theorem compare_prices_no_results_witness :
    compare_prices "laptop" [none, none, none] = "No prices found for laptop" :=
  compare_prices_no_results "laptop" [none, none, none] (by decide)

/-- C7 counterexample: the product name is not percent-encoded into the
template — for the product "a&b" the URL actually built keeps the raw
ampersand, differing from the URL obtained by substituting the
percent- and plus-encoded name. -/
theorem build_url_not_percent_encoded :
    build_url amazonConfig "a&b" = "https://www.amazon.com/s?k=a&b" ∧
    pyFormat amazonConfig.url (urlEncodeSpec "a&b") =
      "https://www.amazon.com/s?k=a%26b" ∧
    build_url amazonConfig "a&b" ≠ pyFormat amazonConfig.url (urlEncodeSpec "a&b") :=
  ⟨by decide, by decide, by decide⟩

/-- C7 (amended): for every product name and every registry source, the
request URL is built by substituting the product name with each space
replaced by a plus sign — and nothing else altered — into the template's
single slot. -/
theorem build_url_space_to_plus (product : String) :
    build_url amazonConfig product =
      "https://www.amazon.com/s?k=" ++ pyReplaceSpace product ∧
    build_url bestbuyConfig product =
      "https://www.bestbuy.com/site/searchpage.jsp?st=" ++ pyReplaceSpace product ∧
    build_url neweggConfig product =
      "https://www.newegg.com/p/pl?d=" ++ pyReplaceSpace product ∧
    (pyReplaceSpace product).data =
      product.data.map (fun c => if c = ' ' then '+' else c) :=
  ⟨build_url_split amazonConfig product "https://www.amazon.com/s?k="
      (by decide) (by decide),
   build_url_split bestbuyConfig product "https://www.bestbuy.com/site/searchpage.jsp?st="
      (by decide) (by decide),
   build_url_split neweggConfig product "https://www.newegg.com/p/pl?d="
      (by decide) (by decide),
   rfl⟩

/-- C8: get_available_websites returns the header line plus the
newline-joined, hyphen-bulleted source identifiers in registry order
(amazon, bestbuy, newegg); it is a pure constant of the embedding, hence
identical across repeated calls. -/
theorem get_available_websites_format :
    get_available_websites =
      "Available websites for price comparison:\n" ++
        String.intercalate "\n" ((WEBSITES.map Prod.fst).map (fun s => "- " ++ s)) ∧
    WEBSITES.map Prod.fst = ["amazon", "bestbuy", "newegg"] ∧
    get_available_websites =
      "Available websites for price comparison:\n- amazon\n- bestbuy\n- newegg" :=
  ⟨rfl, rfl, by decide⟩

/-- C10: find_element is total over arbitrary selector values — a selector
that is neither a string nor a dict, or a dict containing none of the keys
class, id, tag, attrs, yields None rather than raising. -/
theorem find_element_malformed_selector_none (doc : List Node) (d : DictSel)
    (h1 : d.cls = none) (h2 : d.id = none) (h3 : d.tag = none) (h4 : d.attrs = none) :
    find_element doc (.dict d) = none ∧ find_element doc .other = none := by
  obtain ⟨c, i, t, a⟩ := d
  subst h1 h2 h3 h4
  exact ⟨rfl, rfl⟩

/-- C10 witness: the empty dict selector and a non-string non-dict
selector both yield None on a concrete document. -/
theorem find_element_malformed_selector_none_witness :
    find_element docTagAttrs (.dict ⟨none, none, none, none⟩) = none ∧
    find_element docTagAttrs .other = none :=
  find_element_malformed_selector_none docTagAttrs ⟨none, none, none, none⟩
    rfl rfl rfl rfl

end PriceServer
